import Mathlib

set_option maxRecDepth 20000

/-!
Shallow embedding of the dungeon-file decoder (src/src/main.rs) and proofs
about it.  Byte buffers are modelled as `List Nat` (each element a byte value,
`< 256`), Rust `anyhow::Result` as the `RResult` type below, and a Rust panic
(out-of-range slice index) as the distinguished `RResult.panicked` outcome.
All pointers are absolute byte offsets into the one input buffer, exactly as
in the source.
-/

namespace Digimon

/-- Decode errors, mirroring the `anyhow!` messages of the source; `context`
mirrors `anyhow::Context::context`, which wraps an error with a message. -/
inductive DErr where
  | truncatedPointer
  | truncatedList
  | truncatedCharacter
  | illegalCharacter (code : Nat)
  | truncatedFloorPlan
  | truncatedLayoutTable
  | floorTableTruncated
  | context (msg : String) (e : DErr)
deriving DecidableEq

/-- Outcome of running a piece of the Rust decoder: a value, an
`anyhow::Error`, or a panic (e.g. a slice index out of range). -/
inductive RResult (α : Type) where
  | ok (a : α)
  | err (e : DErr)
  | panicked
deriving DecidableEq

/-- `?` / chaining on `anyhow::Result`, with panics propagated. -/
def RResult.bind {α β : Type} : RResult α → (α → RResult β) → RResult β
  | .ok a, f => f a
  | .err e, _ => .err e
  | .panicked, _ => .panicked

/-- `.context(msg)` on a `Result`: wraps an error, leaves success and panics
alone. -/
def RResult.ctx {α : Type} (msg : String) : RResult α → RResult α
  | .err e => .err (.context msg e)
  | r => r

/-- Is the underlying cause of an error one of the source's truncation
(`TruncatedData`) errors?  Unwraps `context` layers. -/
def DErr.isTruncated : DErr → Bool
  | .truncatedPointer => true
  | .truncatedList => true
  | .truncatedCharacter => true
  | .truncatedFloorPlan => true
  | .truncatedLayoutTable => true
  | .floorTableTruncated => true
  | .illegalCharacter _ => false
  | .context _ e => e.isTruncated

/-- The Rust slice expression `&raw[i..]`: the suffix starting at `i` when
`i ≤ raw.len()`, and a panic (range start index out of range) otherwise. -/
def sliceFrom (raw : List Nat) (i : Nat) : RResult (List Nat) :=
  if i ≤ raw.length then .ok (raw.drop i) else .panicked

/-- Little-endian value of the first four bytes of a list
(`u32::from_le_bytes`). -/
def leVal (raw : List Nat) : Nat :=
  raw.getD 0 0 + 256 * raw.getD 1 0 + 65536 * raw.getD 2 0 +
    16777216 * raw.getD 3 0

/-- `fn parse_ptr(raw: &[u8]) -> anyhow::Result<usize>` (main.rs lines
25-32): errors with "truncated pointer" when fewer than 4 bytes remain,
otherwise the first 4 bytes as a little-endian u32. -/
def parse_ptr (raw : List Nat) : RResult Nat :=
  if raw.length < 4 then .err .truncatedPointer
  else .ok (leVal raw)

/-- `CHARACTER_MAP` (main.rs lines 48-190): the glyph table from 16-bit
character codes to display tokens. -/
def CHARACTER_MAP : Nat → Option String := fun code =>
  match code with
  | 0x0 => some "0"
  | 0x1 => some "1"
  | 0x2 => some "2"
  | 0x3 => some "3"
  | 0x4 => some "4"
  | 0x5 => some "5"
  | 0x6 => some "6"
  | 0x7 => some "7"
  | 0x8 => some "8"
  | 0x9 => some "9"
  | 0x0A => some "A"
  | 0x0B => some "B"
  | 0x0C => some "C"
  | 0x0D => some "D"
  | 0x0E => some "E"
  | 0x0F => some "F"
  | 0x10 => some "G"
  | 0x11 => some "H"
  | 0x12 => some "I"
  | 0x13 => some "J"
  | 0x14 => some "K"
  | 0x15 => some "L"
  | 0x16 => some "M"
  | 0x17 => some "N"
  | 0x18 => some "O"
  | 0x19 => some "P"
  | 0x1A => some "Q"
  | 0x1B => some "R"
  | 0x1C => some "S"
  | 0x1D => some "T"
  | 0x1E => some "U"
  | 0x1F => some "V"
  | 0x20 => some "W"
  | 0x21 => some "X"
  | 0x22 => some "Y"
  | 0x23 => some "Z"
  | 0x24 => some "a"
  | 0x25 => some "b"
  | 0x26 => some "c"
  | 0x27 => some "d"
  | 0x28 => some "e"
  | 0x29 => some "f"
  | 0x2A => some "g"
  | 0x2B => some "h"
  | 0x2C => some "i"
  | 0x2D => some "j"
  | 0x2E => some "k"
  | 0x2F => some "l"
  | 0x30 => some "m"
  | 0x31 => some "n"
  | 0x32 => some "o"
  | 0x33 => some "p"
  | 0x34 => some "q"
  | 0x35 => some "r"
  | 0x36 => some "s"
  | 0x37 => some "t"
  | 0x38 => some "u"
  | 0x39 => some "v"
  | 0x3A => some "w"
  | 0x3B => some "x"
  | 0x3C => some "y"
  | 0x3D => some "z"
  | 0x41 => some "<SQUARE>"
  | 0x44 => some "?"
  | 0x45 => some "!"
  | 0x46 => some "/"
  | 0x49 => some "-"
  | 0x54 => some ","
  | 0x55 => some "."
  | 0x56 => some ""
  | 0x5B => some "PLUS SIGN"
  | 0xFB => some "<X>"
  | 0xFC => some "<NEW BOX>"
  | 0xFD => some " "
  | 0xFE => some "<ENTER>"
  | 0xF000 => some "Akira"
  | 0xF006 => some "Digimon"
  | 0xF007 => some "you"
  | 0xF008 => some "the"
  | 0xF009 => some "Digi-Beetle"
  | 0xF00A => some "Domain"
  | 0xF00B => some "Guard"
  | 0xF00C => some "Tamer"
  | 0xF00D => some "here"
  | 0xF00E => some "have"
  | 0xF00F => some "Knights"
  | 0xF010 => some "and"
  | 0xF011 => some "thing"
  | 0xF012 => some "Security"
  | 0xF013 => some "that"
  | 0xF014 => some "Bertran"
  | 0xF015 => some "Tournament"
  | 0xF016 => some "Crimson"
  | 0xF018 => some "something"
  | 0xF019 => some "Item"
  | 0xF01A => some "Falcon"
  | 0xF01B => some "for"
  | 0xF01C => some "That's"
  | 0xF01D => some "Commander"
  | 0xF01E => some "Blood"
  | 0xF01F => some "Leader"
  | 0xF020 => some "Attendant"
  | 0xF021 => some "Cecilia"
  | 0xF022 => some "all"
  | 0xF023 => some "mission"
  | 0xF024 => some "this"
  | 0xF026 => some "Archive"
  | 0xF027 => some "Black"
  | 0xF028 => some "I'll"
  | 0xF029 => some "are"
  | 0xF02A => some "Sword"
  | 0xF02B => some "right"
  | 0xF02C => some "Digivolve"
  | 0xF02D => some "enter"
  | 0xF02E => some "What"
  | 0xF02F => some "will"
  | 0xF030 => some "come"
  | 0xF031 => some "You"
  | 0xF032 => some "Coliseum"
  | 0xF033 => some "about"
  | 0xF034 => some "don't"
  | 0xF035 => some "anything"
  | 0xF037 => some "Parts"
  | 0xF038 => some "where"
  | 0xF039 => some "The"
  | 0xF03A => some "know"
  | 0xF03B => some "Leomon"
  | 0xF03C => some "want"
  | 0xF03D => some "Oldman"
  | 0xF03E => some "like"
  | 0xF03F => some "need"
  | 0xF040 => some "Chief"
  | 0xF041 => some "with"
  | 0xF042 => some "Thank"
  | 0xF044 => some "Island"
  | 0xF045 => some "can"
  | 0xF046 => some "really"
  | 0xF047 => some "Blue"
  | 0xF048 => some "time"
  | _ => none

/-- `fn parse_string_piece` (main.rs lines 192-219): consumes one character
code (1 byte, or 2 bytes when the first is the `0xF0` extension prefix) and
returns its token and the remaining bytes; `none` on the `0xFF` terminator;
"truncated character" when a needed byte is missing; "illegal character" for
a code absent from `CHARACTER_MAP`. -/
def parse_string_piece (raw : List Nat) :
    RResult (Option (String × List Nat)) :=
  match raw with
  | [] => .err .truncatedCharacter
  | first :: rest =>
    if first = 0xFF then .ok none
    else if first = 0xF0 then
      match rest with
      | [] => .err .truncatedCharacter
      | second :: rest2 =>
        match CHARACTER_MAP (first <<< 8 ||| second) with
        | some s => .ok (some (s, rest2))
        | none => .err (.illegalCharacter (first <<< 8 ||| second))
    else
      match CHARACTER_MAP first with
      | some s => .ok (some (s, rest))
      | none => .err (.illegalCharacter first)

/-- Each successfully consumed piece leaves strictly fewer bytes (needed for
termination of `parse_string`). -/
def parse_string_piece_shrink {raw : List Nat} {p : String}
    {rest : List Nat} (h : parse_string_piece raw = .ok (some (p, rest))) :
    rest.length < raw.length := by
  unfold parse_string_piece at h
  match raw with
  | [] => exact absurd h (by simp)
  | first :: rest0 =>
    by_cases h1 : first = 0xFF
    · simp [h1] at h
    · by_cases h2 : first = 0xF0
      · subst h2
        match rest0 with
        | [] => simp at h
        | second :: rest2 =>
          cases hm : CHARACTER_MAP (61440 ||| second) with
          | none => simp [hm] at h
          | some s =>
            simp [hm] at h
            obtain ⟨-, rfl⟩ := h
            simp only [List.length_cons]
            omega
      · cases hm : CHARACTER_MAP first with
        | none => simp [h1, h2, hm] at h
        | some s =>
          simp [h1, h2, hm] at h
          obtain ⟨-, rfl⟩ := h
          simp only [List.length_cons]
          omega

/-- `fn parse_string` (main.rs lines 221-228): repeatedly consumes pieces
until the terminator, concatenating the tokens. -/
def parse_string (raw : List Nat) : RResult String :=
  match h : parse_string_piece raw with
  | .err e => .err e
  | .panicked => .panicked
  | .ok none => .ok ""
  | .ok (some (piece, rest)) =>
    match parse_string rest with
    | .ok value => .ok (piece ++ value)
    | .err e => .err e
    | .panicked => .panicked
termination_by raw.length
decreasing_by exact parse_string_piece_shrink h

/-- One row-filling pass of `FloorPlan::new`: read `n` bytes sequentially,
erroring with "truncated floor plan" when the buffer runs out (main.rs lines
238-247, the inner `try_for_each` over one row when `n = 32`). -/
def readRun : Nat → List Nat → RResult (List Nat × List Nat)
  | 0, raw => .ok ([], raw)
  | _ + 1, [] => .err .truncatedFloorPlan
  | n + 1, b :: rest =>
    match readRun n rest with
    | .ok (ts, rem) => .ok (b :: ts, rem)
    | .err e => .err e
    | .panicked => .panicked

/-- The outer `try_for_each` of `FloorPlan::new`: read `k` rows of 32 tiles
each, sequentially. -/
def readRows : Nat → List Nat → RResult (List (List Nat) × List Nat)
  | 0, raw => .ok ([], raw)
  | k + 1, raw =>
    match readRun 32 raw with
    | .ok (row, rest) =>
      match readRows k rest with
      | .ok (rows, rem) => .ok (row :: rows, rem)
      | .err e => .err e
      | .panicked => .panicked
    | .err e => .err e
    | .panicked => .panicked

/-- `struct FloorPlan { tiles: [[u8; 32]; 48] }` (main.rs lines 230-233):
48 rows of 32 tile bytes. -/
structure FloorPlan where
  tiles : List (List Nat)
deriving DecidableEq

/-- `FloorPlan::new` (main.rs lines 236-251): fill the 48x32 grid row-major
from the start of `raw`, erroring with "truncated floor plan" if fewer than
1536 bytes remain. -/
def FloorPlan.new (raw : List Nat) : RResult FloorPlan :=
  match readRows 48 raw with
  | .ok (rows, _) => .ok ⟨rows⟩
  | .err e => .err e
  | .panicked => .panicked

/-- `struct Layout {}` (main.rs line 272): the source's layout type has no
fields at all. -/
structure Layout where
deriving DecidableEq

/-- `Layout::new` (main.rs lines 274-297): check the 20-byte pointer table is
in bounds, parse the floor-plan pointer and decode the `FloorPlan` at its
target, then parse the warps/chests/traps/digimon pointers, and return the
(empty) `Layout`.  Each `&raw[p..]` slice is `sliceFrom` (a panic when `p`
exceeds the buffer length). -/
def Layout.new (raw : List Nat) (table_ptr : Nat) : RResult Layout :=
  if raw.length < table_ptr + 20 then .err .truncatedLayoutTable
  else
    RResult.bind (RResult.ctx "parsing floor plan pointer"
        (RResult.bind (sliceFrom raw table_ptr) parse_ptr))
      fun floor_plan_ptr =>
    RResult.bind (RResult.bind (sliceFrom raw floor_plan_ptr) FloorPlan.new)
      fun _floor_plan =>
    RResult.bind (RResult.ctx "parsing warps pointer"
        (RResult.bind (sliceFrom raw (table_ptr + 4)) parse_ptr))
      fun _warps_ptr =>
    RResult.bind (RResult.ctx "parsing chests pointer"
        (RResult.bind (sliceFrom raw (table_ptr + 8)) parse_ptr))
      fun _chests_ptr =>
    RResult.bind (RResult.ctx "parsing traps pointer"
        (RResult.bind (sliceFrom raw (table_ptr + 12)) parse_ptr))
      fun _traps_ptr =>
    RResult.bind (RResult.ctx "parsing digimon pointer"
        (RResult.bind (sliceFrom raw (table_ptr + 16)) parse_ptr))
      fun _digimon_ptr =>
    .ok ⟨⟩

/-- The `for i in 0..8` loop of `Floor::new` (main.rs lines 316-326): `k`
slots remain, `i` slots already handled (for the "parsing layout {i+1}"
context), `next` is the cursor into the slot table, `seen` the set of layout
pointer values already inserted (`HashSet::insert` returning `false` skips
the decode).  Returns the list of layout pointers actually passed to
`Layout::new`, in decode order, so that decode side effects are visible. -/
def floorLayoutsLoop (raw : List Nat) :
    Nat → Nat → List Nat → List Nat → RResult (List Nat)
  | 0, _, _, _ => .ok []
  | k + 1, i, next, seen =>
    RResult.bind (RResult.ctx "parsing layout pointer" (parse_ptr next))
      fun layout_ptr =>
    RResult.bind (sliceFrom next 4) fun next2 =>
    if layout_ptr ∈ seen then
      floorLayoutsLoop raw k (i + 1) next2 seen
    else
      RResult.bind (RResult.ctx ("parsing layout " ++ toString (i + 1))
          (Layout.new raw layout_ptr))
        fun _layout =>
      RResult.bind (floorLayoutsLoop raw k (i + 1) next2 (layout_ptr :: seen))
        fun ds =>
      .ok (layout_ptr :: ds)

/-- `struct Floor {}` (main.rs line 300): also fieldless in the source. -/
structure Floor where
deriving DecidableEq

/-- `Floor::new` (main.rs lines 302-328): parse the name pointer at the floor
table, decode the title string at its target, check the table reaches the
layout-pointer area, then run the eight-slot layout loop with a fresh
(empty) seen-set. -/
def Floor.new (raw : List Nat) (table_ptr : Nat) : RResult Floor :=
  RResult.bind (RResult.ctx "parsing name pointer"
      (RResult.bind (sliceFrom raw table_ptr) parse_ptr))
    fun name_ptr =>
  RResult.bind (RResult.ctx "parsing name"
      (RResult.bind (sliceFrom raw name_ptr) parse_string))
    fun _title =>
  if raw.length < table_ptr + 8 then .err .floorTableTruncated
  else
    RResult.bind (floorLayoutsLoop raw 8 0 (raw.drop (table_ptr + 8)) [])
      fun _decoded =>
    .ok ⟨⟩

/-- `struct Dungeon {}` (main.rs line 331): fieldless in the source. -/
structure Dungeon where
deriving DecidableEq

/-- The floor-pointer loop of `<Dungeon as TryFrom<&[u8]>>::try_from`
(main.rs lines 338-357): read 4-byte pointers from the front of `raw_ptrs`;
a value of 0 terminates the loop returning the floors accumulated so far; a
non-zero value decodes a floor at that absolute offset (context "parsing
floor {i}", `i` 1-indexed).  Fewer than 4 bytes remaining is the
"truncated pointer" error with context "parsing next floor pointer". -/
def dungeonLoop (raw : List Nat) :
    List Nat → Nat → List Floor → RResult (List Floor)
  | a :: b :: c :: d :: rest, i, floors =>
    let floor_ptr := leVal (a :: b :: c :: d :: rest)
    if floor_ptr = 0 then .ok floors
    else
      match Floor.new raw floor_ptr with
      | .ok floor => dungeonLoop raw rest (i + 1) (floors ++ [floor])
      | .err e => .err (.context ("parsing floor " ++ toString i) e)
      | .panicked => .panicked
  | _, _, _ => .err (.context "parsing next floor pointer" .truncatedPointer)

/-- `Dungeon::try_from` on a byte buffer (main.rs lines 335-358): run the
floor-pointer loop from offset 0 and discard the accumulated floor vector,
returning the (empty) `Dungeon`. -/
def Dungeon.tryFrom (raw : List Nat) : RResult Dungeon :=
  RResult.bind (dungeonLoop raw raw 1 []) fun _floors => .ok ⟨⟩

/-- First-occurrence deduplication relative to an already-seen set: the
order-preserving list of values `HashSet::insert` accepts. -/
def dedupFirst : List Nat → List Nat → List Nat
  | _, [] => []
  | seen, p :: ps =>
    if p ∈ seen then dedupFirst seen ps
    else p :: dedupFirst (p :: seen) ps

/-- The `k` little-endian pointer values laid out at 4-byte stride from the
start of `next` (the contents of a floor's layout-slot table when
`k = 8`). -/
def slotPtrs (k : Nat) (next : List Nat) : List Nat :=
  (List.range k).map fun j => leVal (next.drop (4 * j))

/-- A byte run that the glyph table maps cleanly: each element is either a
mapped single-byte code (not the terminator, not the extension prefix) or
the `0xF0` prefix followed by a mapped extended code; `s` is the
concatenation of the mapped tokens. -/
inductive Encodes : List Nat → String → Prop where
  | nil : Encodes [] ""
  | single {b : Nat} {s : String} {bs : List Nat} {t : String} :
      b ≠ 0xFF → b ≠ 0xF0 → CHARACTER_MAP b = some s → Encodes bs t →
      Encodes (b :: bs) (s ++ t)
  | extended {b2 : Nat} {s : String} {bs : List Nat} {t : String} :
      CHARACTER_MAP (0xF0 <<< 8 ||| b2) = some s → Encodes bs t →
      Encodes (0xF0 :: b2 :: bs) (s ++ t)

/-- Concrete buffer: a 20-byte layout table at offset 0 (floor plan at 20,
warps 1, chests 2, traps 3, spawn 4) followed by a 1536-byte floor plan of
5s. -/
def bufA : List Nat :=
  [20, 0, 0, 0, 1, 0, 0, 0, 2, 0, 0, 0, 3, 0, 0, 0, 4, 0, 0, 0] ++
    List.replicate 1536 5

/-- Like `bufA` but with a different warps offset (9) and different floor
plan bytes (7s). -/
def bufB : List Nat :=
  [20, 0, 0, 0, 9, 0, 0, 0, 2, 0, 0, 0, 3, 0, 0, 0, 4, 0, 0, 0] ++
    List.replicate 1536 7

/-- Concrete dungeon buffer with two floor pointers, both pointing at the
same floor table (offset 13); the floor's name pointer targets the lone
`0xFF` at offset 12, and all eight layout slots hold the same layout table
pointer 53, whose floor-plan pointer is 73, the start of 1536 zero bytes. -/
def dungeonB2 : List Nat :=
  [13, 0, 0, 0, 13, 0, 0, 0, 0, 0, 0, 0, 255,
   12, 0, 0, 0, 0, 0, 0, 0,
   53, 0, 0, 0, 53, 0, 0, 0, 53, 0, 0, 0, 53, 0, 0, 0,
   53, 0, 0, 0, 53, 0, 0, 0, 53, 0, 0, 0, 53, 0, 0, 0,
   73, 0, 0, 0, 0, 0, 0, 0, 0, 0, 0, 0, 0, 0, 0, 0, 0, 0, 0, 0] ++
    List.replicate 1536 0

/-- Concrete buffer holding two byte-identical 20-byte layout tables, at
offsets 0 and 20, both with floor-plan pointer 40 (1536 bytes of 9s). -/
def bufD : List Nat :=
  [40, 0, 0, 0, 0, 0, 0, 0, 0, 0, 0, 0, 0, 0, 0, 0, 0, 0, 0, 0,
   40, 0, 0, 0, 0, 0, 0, 0, 0, 0, 0, 0, 0, 0, 0, 0, 0, 0, 0, 0] ++
    List.replicate 1536 9

/-- A slot table whose eight pointers are 0, 20, 0, 0, 0, 0, 0, 0: two
distinct layout-table offsets (with byte-identical contents in `bufD`), the
first one repeated. -/
def nextD : List Nat :=
  [0, 0, 0, 0, 20, 0, 0, 0, 0, 0, 0, 0, 0, 0, 0, 0,
   0, 0, 0, 0, 0, 0, 0, 0, 0, 0, 0, 0, 0, 0, 0, 0]

/-- The grid the spec describes for a floor-plan region: 48 rows, each the
32 bytes at row-major position, for comparison with `FloorPlan.new`. -/
def floorRows (raw : List Nat) : List (List Nat) :=
  (List.range 48).map fun r => (raw.drop (32 * r)).take 32

theorem ps_step (raw : List Nat) :
    parse_string raw =
      match parse_string_piece raw with
      | .err e => .err e
      | .panicked => .panicked
      | .ok none => .ok ""
      | .ok (some (piece, rest)) =>
        match parse_string rest with
        | .ok value => .ok (piece ++ value)
        | .err e => .err e
        | .panicked => .panicked := by
  rw [parse_string]
  split <;> rename_i hq <;> rw [hq]

theorem ps_term (rest : List Nat) : parse_string (255 :: rest) = .ok "" := by
  rw [ps_step]
  simp [parse_string_piece]

theorem piece_single {b : Nat} {s : String} (rest : List Nat)
    (h1 : b ≠ 0xFF) (h2 : b ≠ 0xF0) (h3 : CHARACTER_MAP b = some s) :
    parse_string_piece (b :: rest) = .ok (some (s, rest)) := by
  simp [parse_string_piece, h1, h2, h3]

theorem piece_extended {b2 : Nat} {s : String} (rest : List Nat)
    (h3 : CHARACTER_MAP (0xF0 <<< 8 ||| b2) = some s) :
    parse_string_piece (0xF0 :: b2 :: rest) = .ok (some (s, rest)) := by
  simp [parse_string_piece]
  simp at h3
  rw [h3]

theorem piece_single_none {b : Nat} (rest : List Nat)
    (h1 : b ≠ 0xFF) (h2 : b ≠ 0xF0) (h3 : CHARACTER_MAP b = none) :
    parse_string_piece (b :: rest) = .err (.illegalCharacter b) := by
  simp [parse_string_piece, h1, h2, h3]

theorem piece_extended_none {b2 : Nat} (rest : List Nat)
    (h3 : CHARACTER_MAP (0xF0 <<< 8 ||| b2) = none) :
    parse_string_piece (0xF0 :: b2 :: rest) =
      .err (.illegalCharacter (0xF0 <<< 8 ||| b2)) := by
  simp [parse_string_piece]
  simp at h3
  rw [h3]

theorem ps_of_piece_err {raw : List Nat} {e : DErr}
    (h : parse_string_piece raw = .err e) : parse_string raw = .err e := by
  rw [ps_step, h]

/-- Every cleanly mapped byte run acts as a prefix: decoding `bs ++ tail`
decodes `bs` to `s` and then continues with `tail`. -/
theorem encodes_prefix {bs : List Nat} {s : String} (h : Encodes bs s) :
    ∀ tail : List Nat,
      parse_string (bs ++ tail) =
        match parse_string tail with
        | .ok v => .ok (s ++ v)
        | .err e => .err e
        | .panicked => .panicked := by
  induction h with
  | nil =>
    intro tail
    simp only [List.nil_append]
    cases hr : parse_string tail <;> simp [String.empty_append]
  | @single b s0 bs0 t0 h1 h2 h3 henc ih =>
    intro tail
    rw [List.cons_append, ps_step, piece_single _ h1 h2 h3]
    dsimp only
    rw [ih tail]
    cases hr : parse_string tail <;> simp [String.append_assoc]
  | @extended b2 s0 bs0 t0 h3 henc ih =>
    intro tail
    rw [List.cons_append, List.cons_append, ps_step, piece_extended _ h3]
    dsimp only
    rw [ih tail]
    cases hr : parse_string tail <;> simp [String.append_assoc]

theorem parse_ptr_cons (b0 b1 b2 b3 : Nat) (rest : List Nat) :
    parse_ptr (b0 :: b1 :: b2 :: b3 :: rest) =
      .ok (b0 + 256 * b1 + 65536 * b2 + 16777216 * b3) := by
  simp [parse_ptr, leVal]

theorem bind_ok {A B : Type} (a : A) (f : A → RResult B) :
    RResult.bind (.ok a) f = f a := rfl

theorem bind_err {A B : Type} (e : DErr) (f : A → RResult B) :
    RResult.bind (.err e) f = (.err e : RResult B) := rfl

theorem bind_panicked {A B : Type} (f : A → RResult B) :
    RResult.bind .panicked f = (.panicked : RResult B) := rfl

theorem ctx_ok {A : Type} (msg : String) (a : A) :
    RResult.ctx msg (.ok a) = (.ok a : RResult A) := rfl

theorem ctx_err {A : Type} (msg : String) (e : DErr) :
    RResult.ctx msg (.err e) = (.err (.context msg e) : RResult A) := rfl

theorem ctx_panicked {A : Type} (msg : String) :
    RResult.ctx msg .panicked = (.panicked : RResult A) := rfl

theorem readRun_ok : ∀ (n : Nat) (l : List Nat), n ≤ l.length →
    readRun n l = .ok (l.take n, l.drop n)
  | 0, l, _ => by simp [readRun]
  | n + 1, [], h => by simp at h
  | n + 1, b :: rest, h => by
    rw [readRun, readRun_ok n rest (by simpa using h)]
    simp

theorem readRun_err : ∀ (n : Nat) (l : List Nat), l.length < n →
    readRun n l = .err .truncatedFloorPlan
  | 0, l, h => by omega
  | n + 1, [], _ => by rw [readRun]
  | n + 1, b :: rest, h => by
    rw [readRun, readRun_err n rest (by simpa using h)]

theorem readRows_ok : ∀ (k : Nat) (l : List Nat), 32 * k ≤ l.length →
    readRows k l = .ok ((List.range k).map
      (fun r => (l.drop (32 * r)).take 32), l.drop (32 * k))
  | 0, l, _ => by simp [readRows]
  | k + 1, l, h => by
    have h32 : 32 ≤ l.length := by omega
    rw [readRows, readRun_ok 32 l h32]
    dsimp only
    rw [readRows_ok k (l.drop 32) (by simp [List.length_drop]; omega)]
    simp only [RResult.ok.injEq, Prod.mk.injEq]
    refine ⟨?_, ?_⟩
    · rw [List.range_succ_eq_map, List.map_cons, List.map_map]
      simp only [Nat.mul_zero, List.drop_zero]
      congr 1
      apply List.map_congr_left
      intro a _
      simp only [Function.comp, List.drop_drop]
      congr 2
      omega
    · rw [List.drop_drop]
      congr 1
      omega

theorem readRows_err : ∀ (k : Nat) (l : List Nat), l.length < 32 * k →
    readRows k l = .err .truncatedFloorPlan
  | 0, l, h => by omega
  | k + 1, l, h => by
    by_cases h32 : 32 ≤ l.length
    · rw [readRows, readRun_ok 32 l h32]
      dsimp only
      rw [readRows_err k (l.drop 32) (by simp [List.length_drop]; omega)]
    · rw [readRows, readRun_err 32 l (by omega)]

theorem floorplan_ok (l : List Nat) (h : 1536 ≤ l.length) :
    FloorPlan.new l = .ok ⟨floorRows l⟩ := by
  rw [FloorPlan.new, readRows_ok 48 l (by omega)]
  rfl

theorem floorplan_err (l : List Nat) (h : l.length < 1536) :
    FloorPlan.new l = .err .truncatedFloorPlan := by
  rw [FloorPlan.new, readRows_err 48 l (by omega)]

theorem floorRows_entry (l : List Nat) {r c : Nat} (hr : r < 48)
    (hc : c < 32) :
    ((floorRows l).getD r []).getD c 0 = l.getD (32 * r + c) 0 := by
  have h1 : (floorRows l)[r]? = some ((l.drop (32 * r)).take 32) := by
    simp [floorRows, List.getElem?_map, List.getElem?_range hr]
  rw [show (floorRows l).getD r [] = (l.drop (32 * r)).take 32 from by
    rw [List.getD_eq_getElem?_getD, h1]
    rfl]
  rw [List.getD_eq_getElem?_getD, List.getElem?_take, if_pos hc,
    List.getElem?_drop, ← List.getD_eq_getElem?_getD]

theorem floorRows_shape (l : List Nat) (h : 1536 ≤ l.length) :
    (floorRows l).length = 48 ∧ ∀ row ∈ floorRows l, row.length = 32 := by
  refine ⟨by simp [floorRows], ?_⟩
  intro row hrow
  simp only [floorRows, List.mem_map, List.mem_range] at hrow
  obtain ⟨r, hr, rfl⟩ := hrow
  rw [List.length_take, List.length_drop]
  have : 32 ≤ l.length - 32 * r := by omega
  omega

theorem parse_ptr_drop_ok (raw : List Nat) (o : Nat)
    (h : o + 4 ≤ raw.length) :
    RResult.bind (sliceFrom raw o) parse_ptr = .ok (leVal (raw.drop o)) := by
  rw [show sliceFrom raw o = .ok (raw.drop o) from by
    rw [sliceFrom, if_pos (by omega)]]
  simp only [bind_ok, bind_err, bind_panicked]
  rw [parse_ptr, if_neg (by simp [List.length_drop]; omega)]

theorem layout_ok (raw : List Nat) (t fp : Nat)
    (h1 : t + 20 ≤ raw.length) (h2 : parse_ptr (raw.drop t) = .ok fp)
    (h3 : fp + 1536 ≤ raw.length) : Layout.new raw t = .ok ⟨⟩ := by
  have hfp : leVal (raw.drop t) = fp := by
    rw [parse_ptr, if_neg (by simp [List.length_drop]; omega)] at h2
    simpa using h2
  unfold Layout.new
  rw [if_neg (by omega)]
  rw [parse_ptr_drop_ok raw t (by omega), hfp]
  simp only [ctx_ok, ctx_err, ctx_panicked, bind_ok, bind_err, bind_panicked]
  rw [show sliceFrom raw fp = .ok (raw.drop fp) from by
    rw [sliceFrom, if_pos (by omega)]]
  simp only [bind_ok, bind_err, bind_panicked]
  rw [floorplan_ok _ (by simp [List.length_drop]; omega)]
  simp only [bind_ok, bind_err, bind_panicked]
  rw [parse_ptr_drop_ok raw (t + 4) (by omega)]
  simp only [ctx_ok, ctx_err, ctx_panicked, bind_ok, bind_err, bind_panicked]
  rw [parse_ptr_drop_ok raw (t + 8) (by omega)]
  simp only [ctx_ok, ctx_err, ctx_panicked, bind_ok, bind_err, bind_panicked]
  rw [parse_ptr_drop_ok raw (t + 12) (by omega)]
  simp only [ctx_ok, ctx_err, ctx_panicked, bind_ok, bind_err, bind_panicked]
  rw [parse_ptr_drop_ok raw (t + 16) (by omega)]
  simp only [ctx_ok, ctx_err, ctx_panicked, bind_ok, bind_err, bind_panicked]

theorem floor_ok (raw : List Nat) (t np : Nat) (title : String)
    (ds : List Nat) (h1 : t ≤ raw.length)
    (h2 : parse_ptr (raw.drop t) = .ok np) (h3 : np ≤ raw.length)
    (h4 : parse_string (raw.drop np) = .ok title)
    (h5 : t + 8 ≤ raw.length)
    (h6 : floorLayoutsLoop raw 8 0 (raw.drop (t + 8)) [] = .ok ds) :
    Floor.new raw t = .ok ⟨⟩ := by
  unfold Floor.new
  rw [show sliceFrom raw t = .ok (raw.drop t) from by
    rw [sliceFrom, if_pos h1]]
  simp only [bind_ok, bind_err, bind_panicked]
  rw [h2]
  simp only [ctx_ok, ctx_err, ctx_panicked, bind_ok, bind_err, bind_panicked]
  rw [show sliceFrom raw np = .ok (raw.drop np) from by
    rw [sliceFrom, if_pos h3]]
  simp only [bind_ok, bind_err, bind_panicked]
  rw [h4]
  simp only [ctx_ok, ctx_err, ctx_panicked, bind_ok, bind_err, bind_panicked]
  rw [if_neg (by omega), h6]
  simp only [bind_ok, bind_err, bind_panicked]

theorem dungeonLoop_zero (raw ptrs : List Nat) (i : Nat)
    (floors : List Floor) (h : parse_ptr ptrs = .ok 0) :
    dungeonLoop raw ptrs i floors = .ok floors := by
  match ptrs with
  | [] => rw [parse_ptr] at h; simp at h
  | [a] => rw [parse_ptr] at h; simp at h
  | [a, b] => rw [parse_ptr] at h; simp at h
  | [a, b, c] => rw [parse_ptr] at h; simp at h
  | a :: b :: c :: d :: rest =>
    rw [parse_ptr, if_neg (by simp [List.length_cons])] at h
    simp only [RResult.ok.injEq] at h
    simp only [dungeonLoop]
    rw [if_pos h]

theorem dungeonLoop_step (raw : List Nat) (a b c d : Nat)
    (rest : List Nat) (i : Nat) (floors : List Floor) (f : Floor)
    (hnz : leVal (a :: b :: c :: d :: rest) ≠ 0)
    (hF : Floor.new raw (leVal (a :: b :: c :: d :: rest)) = .ok f) :
    dungeonLoop raw (a :: b :: c :: d :: rest) i floors =
      dungeonLoop raw rest (i + 1) (floors ++ [f]) := by
  simp only [dungeonLoop]
  rw [if_neg hnz, hF]

theorem slotPtrs_succ (k : Nat) (next : List Nat) :
    slotPtrs (k + 1) next = leVal next :: slotPtrs k (next.drop 4) := by
  simp only [slotPtrs, List.range_succ_eq_map, List.map_cons, List.map_map,
    Nat.mul_zero, List.drop_zero]
  congr 1
  apply List.map_congr_left
  intro a _
  simp only [Function.comp, List.drop_drop]
  congr 2
  omega

theorem dedupFirst_mem : ∀ (l seen : List Nat) (a : Nat),
    a ∈ dedupFirst seen l ↔ a ∈ l ∧ a ∉ seen
  | [], seen, a => by simp [dedupFirst]
  | p :: ps, seen, a => by
    by_cases hp : p ∈ seen
    · rw [dedupFirst, if_pos hp, dedupFirst_mem ps seen a]
      simp only [List.mem_cons]
      constructor
      · rintro ⟨h1, h2⟩
        exact ⟨Or.inr h1, h2⟩
      · rintro ⟨h1 | h1, h2⟩
        · subst h1; exact absurd hp h2
        · exact ⟨h1, h2⟩
    · rw [dedupFirst, if_neg hp]
      simp only [List.mem_cons, dedupFirst_mem ps (p :: seen) a,
        List.mem_cons]
      constructor
      · rintro (rfl | ⟨h1, h2⟩)
        · exact ⟨Or.inl rfl, hp⟩
        · exact ⟨Or.inr h1, fun hs => h2 (Or.inr hs)⟩
      · rintro ⟨rfl | h1, h2⟩
        · exact Or.inl rfl
        · by_cases hap : a = p
          · exact Or.inl hap
          · exact Or.inr ⟨h1, fun hs => by
              rcases hs with hs | hs
              · exact hap hs
              · exact h2 hs⟩

theorem dedupFirst_nodup : ∀ (l seen : List Nat),
    (dedupFirst seen l).Nodup
  | [], seen => by simp [dedupFirst]
  | p :: ps, seen => by
    by_cases hp : p ∈ seen
    · rw [dedupFirst, if_pos hp]
      exact dedupFirst_nodup ps seen
    · rw [dedupFirst, if_neg hp]
      refine List.nodup_cons.mpr ⟨?_, dedupFirst_nodup ps (p :: seen)⟩
      rw [dedupFirst_mem]
      rintro ⟨-, h2⟩
      exact h2 (List.mem_cons_self p seen)

theorem floorLayoutsLoop_ok_eq : ∀ (k i : Nat)
    (next seen ds raw : List Nat),
    floorLayoutsLoop raw k i next seen = .ok ds →
    ds = dedupFirst seen (slotPtrs k next)
  | 0, i, next, seen, ds, raw, h => by
    simp only [floorLayoutsLoop, RResult.ok.injEq] at h
    simp [← h, slotPtrs, dedupFirst]
  | k + 1, i, next, seen, ds, raw, h => by
    rw [floorLayoutsLoop] at h
    by_cases hl : next.length < 4
    · rw [parse_ptr, if_pos hl] at h
      simp [ctx_ok, ctx_err, ctx_panicked, bind_ok, bind_err, bind_panicked] at h
    · rw [parse_ptr, if_neg hl] at h
      simp only [ctx_ok, ctx_err, ctx_panicked, bind_ok, bind_err, bind_panicked] at h
      rw [show sliceFrom next 4 = .ok (next.drop 4) from by
        rw [sliceFrom, if_pos (by omega)]] at h
      simp only [bind_ok, bind_err, bind_panicked] at h
      rw [slotPtrs_succ, dedupFirst]
      by_cases hmem : leVal next ∈ seen
      · rw [if_pos hmem] at h
        rw [if_pos hmem]
        exact floorLayoutsLoop_ok_eq k (i + 1) (next.drop 4) seen ds raw h
      · rw [if_neg hmem] at h
        rw [if_neg hmem]
        cases hL : Layout.new raw (leVal next) with
        | err e => rw [hL] at h; simp [ctx_ok, ctx_err, ctx_panicked, bind_ok, bind_err, bind_panicked] at h
        | panicked => rw [hL] at h; simp [ctx_ok, ctx_err, ctx_panicked, bind_ok, bind_err, bind_panicked] at h
        | ok l =>
          rw [hL] at h
          simp only [ctx_ok, ctx_err, ctx_panicked, bind_ok, bind_err, bind_panicked] at h
          cases hrec : floorLayoutsLoop raw k (i + 1) (next.drop 4)
              (leVal next :: seen) with
          | err e => rw [hrec] at h; simp [bind_ok, bind_err, bind_panicked] at h
          | panicked => rw [hrec] at h; simp [bind_ok, bind_err, bind_panicked] at h
          | ok ds2 =>
            rw [hrec] at h
            simp only [RResult.bind, RResult.ok.injEq] at h
            rw [← h]
            exact congrArg (leVal next :: ·)
              (floorLayoutsLoop_ok_eq k (i + 1) (next.drop 4)
                (leVal next :: seen) ds2 raw hrec)

theorem dungeonB2_floor : Floor.new dungeonB2 13 = .ok ⟨⟩ := by
  refine floor_ok dungeonB2 13 12 "" [53] (by decide) (by decide) (by decide)
    ?_ (by decide) (by decide)
  rw [dungeonB2, List.drop_append_of_le_length (by decide)]
  exact ps_term _

theorem dungeonB2_tryFrom : Dungeon.tryFrom dungeonB2 = .ok ⟨⟩ := by
  have hloop : dungeonLoop dungeonB2 dungeonB2 1 [] =
      .ok [Floor.mk, Floor.mk] := by
    show dungeonLoop dungeonB2 (13 :: 0 :: 0 :: 0 :: dungeonB2.drop 4) 1 [] =
      .ok [Floor.mk, Floor.mk]
    rw [dungeonLoop_step dungeonB2 13 0 0 0 (dungeonB2.drop 4) 1 [] Floor.mk
      (by decide) dungeonB2_floor]
    show dungeonLoop dungeonB2 (13 :: 0 :: 0 :: 0 :: dungeonB2.drop 8) 2
      ([] ++ [Floor.mk]) = .ok [Floor.mk, Floor.mk]
    rw [dungeonLoop_step dungeonB2 13 0 0 0 (dungeonB2.drop 8) 2
      ([] ++ [Floor.mk]) Floor.mk (by decide) dungeonB2_floor]
    exact dungeonLoop_zero _ _ _ _ (by decide)
  rw [Dungeon.tryFrom, hloop, bind_ok]

/-- C1: the claim says a non-zero resolved pointer pointing past the end of
the buffer makes decoding fail with a bounds-related (`TruncatedData`) error
and never panic.  The code instead panics: with buffer `[5, 0, 0, 0]` the
floor pointer 5 exceeds the 4-byte buffer and `&raw[5..]` is an
out-of-range slice (a Rust panic), while a pointer equal to the length
(buffer `[4, 0, 0, 0]`) does produce the claimed truncation error. -/
theorem c1_out_of_range_pointer_panics :
    Dungeon.tryFrom [5, 0, 0, 0] = .panicked ∧
    Dungeon.tryFrom [4, 0, 0, 0] =
      .err (.context "parsing floor 1"
        (.context "parsing name pointer" .truncatedPointer)) ∧
    (DErr.context "parsing floor 1"
      (.context "parsing name pointer" .truncatedPointer)).isTruncated
      = true :=
  ⟨by decide, by decide, by decide⟩

/-- C2 (counterexample): the returned `Layout` does not contain the decoded
`FloorPlan` nor the four auxiliary offsets: two buffers (`bufA`, `bufB`)
whose layout tables have different warps offsets and different floor-plan
contents decode to identical `Layout` values, so the `Layout` records
neither. -/
theorem c2_layout_counterexample :
    Layout.new bufA 0 = .ok Layout.mk ∧
    Layout.new bufB 0 = .ok Layout.mk ∧
    Layout.new bufA 0 = Layout.new bufB 0 ∧
    parse_ptr (bufA.drop 4) ≠ parse_ptr (bufB.drop 4) ∧
    FloorPlan.new (bufA.drop 20) ≠ FloorPlan.new (bufB.drop 20) :=
  ⟨by decide, by decide, by decide, by decide, by decide⟩

/-- C2 (amended): for every buffer and in-bounds 20-byte layout table whose
floor-plan pointer has 1536 bytes available at its target, the layout
decode succeeds — it resolves the floor-plan pointer and decodes the
`FloorPlan` there — but the returned `Layout` is the empty record: the
`Layout` type carries no data at all, so the floor plan and the four
auxiliary offsets are read and discarded, not recorded. -/
theorem c2_layout_decode_returns_empty (raw : List Nat) (t fp : Nat)
    (h1 : t + 20 ≤ raw.length) (h2 : parse_ptr (raw.drop t) = .ok fp)
    (h3 : fp + 1536 ≤ raw.length) :
    Layout.new raw t = .ok Layout.mk ∧ ∀ l l' : Layout, l = l' :=
  ⟨layout_ok raw t fp h1 h2 h3, fun l l' => by cases l; cases l'; rfl⟩

theorem c2_witness :
    (0 + 20 ≤ bufA.length ∧ parse_ptr (bufA.drop 0) = .ok 20 ∧
      20 + 1536 ≤ bufA.length) ∧
    (Layout.new bufA 0 = .ok Layout.mk ∧ ∀ l l' : Layout, l = l') :=
  ⟨⟨by decide, by decide, by decide⟩,
    c2_layout_decode_returns_empty bufA 0 20 (by decide) (by decide)
      (by decide)⟩

/-- C3: within one floor's eight layout slots, the pointers actually passed
to `Layout::new` are exactly the first occurrences of each distinct pointer
value (`dedupFirst` from an empty seen-set), with no duplicates; `bufD`
shows two distinct pointers with byte-identical 20-byte targets both being
decoded; `dungeonB2` shows a floor whose eight identical slots cause exactly
one decode, while the dungeon with two floors sharing that table decodes
successfully, each floor running the loop with a fresh empty seen-set. -/
theorem c3_layout_slot_dedup (raw next ds : List Nat)
    (h : floorLayoutsLoop raw 8 0 next [] = .ok ds) :
    ds = dedupFirst [] (slotPtrs 8 next) ∧ ds.Nodup ∧
    (∀ p, p ∈ ds ↔ p ∈ slotPtrs 8 next) ∧
    floorLayoutsLoop bufD 8 0 nextD [] = .ok [0, 20] ∧
    floorLayoutsLoop dungeonB2 8 0 (dungeonB2.drop 21) [] = .ok [53] ∧
    Dungeon.tryFrom dungeonB2 = .ok Dungeon.mk := by
  have hd := floorLayoutsLoop_ok_eq 8 0 next [] ds raw h
  refine ⟨hd, ?_, ?_, by decide, by decide, dungeonB2_tryFrom⟩
  · rw [hd]
    exact dedupFirst_nodup _ _
  · intro p
    rw [hd, dedupFirst_mem]
    simp

theorem c3_witness :
    floorLayoutsLoop bufD 8 0 nextD [] = .ok [0, 20] ∧
    ([0, 20] = dedupFirst [] (slotPtrs 8 nextD) ∧
      List.Nodup [0, 20] ∧
      (∀ p, p ∈ [0, 20] ↔ p ∈ slotPtrs 8 nextD) ∧
      floorLayoutsLoop bufD 8 0 nextD [] = .ok [0, 20] ∧
      floorLayoutsLoop dungeonB2 8 0 (dungeonB2.drop 21) [] = .ok [53] ∧
      Dungeon.tryFrom dungeonB2 = .ok Dungeon.mk) :=
  ⟨by decide, c3_layout_slot_dedup bufD nextD [0, 20] (by decide)⟩

/-- C4: with at least 4 bytes remaining, `parse_ptr` returns the 4 bytes
interpreted as a little-endian unsigned 32-bit value; with fewer than 4
bytes it fails with the truncation error. -/
theorem c4_parse_ptr_le (b0 b1 b2 b3 : Nat) (rest raw : List Nat)
    (hb0 : b0 < 256) (hb1 : b1 < 256) (hb2 : b2 < 256) (hb3 : b3 < 256)
    (hlen : raw.length < 4) :
    parse_ptr (b0 :: b1 :: b2 :: b3 :: rest) =
      .ok (b0 + 256 * b1 + 65536 * b2 + 16777216 * b3) ∧
    parse_ptr raw = .err .truncatedPointer :=
  ⟨parse_ptr_cons b0 b1 b2 b3 rest, by rw [parse_ptr, if_pos hlen]⟩

theorem c4_witness :
    0x34 < 256 ∧ 0x12 < 256 ∧ 0 < 256 ∧ ([] : List Nat).length < 4 ∧
    parse_ptr [0x34, 0x12, 0, 0] = .ok 0x1234 ∧
    parse_ptr [] = .err .truncatedPointer := by
  have h := c4_parse_ptr_le 0x34 0x12 0 0 [] [] (by decide) (by decide)
    (by decide) (by decide) (by decide)
  exact ⟨by decide, by decide, by decide, by decide, by simpa using h.1, h.2⟩

/-- C5: a byte run of cleanly mapped codes followed by the `0xFF` terminator
decodes to exactly the concatenation of the mapped tokens; in particular
`[0x0A, 0x24, 0xFF]` decodes to "Aa" and the pair `0xF0, 0x06` contributes
the single token "Digimon" mapped for extended code `0xF006`. -/
theorem c5_text_decoder_concat (bs : List Nat) (s : String)
    (h : Encodes bs s) :
    parse_string (bs ++ [0xFF]) = .ok s ∧
    parse_string [0x0A, 0x24, 0xFF] = .ok "Aa" ∧
    parse_string [0xF0, 0x06, 0xFF] = .ok "Digimon" := by
  have main : ∀ (bs2 : List Nat) (s2 : String), Encodes bs2 s2 →
      parse_string (bs2 ++ [0xFF]) = .ok s2 := by
    intro bs2 s2 h2
    have hp := encodes_prefix h2 [255]
    rw [ps_term] at hp
    simpa [String.append_empty] using hp
  refine ⟨main bs s h, ?_, ?_⟩
  · have e1 : Encodes [0x0A, 0x24] ("A" ++ ("a" ++ "")) :=
      .single (by decide) (by decide) rfl
        (.single (by decide) (by decide) rfl .nil)
    have := main _ _ e1
    simpa using this
  · have e2 : Encodes [0xF0, 0x06] ("Digimon" ++ "") :=
      .extended (by decide) .nil
    have := main _ _ e2
    simpa using this

theorem c5_witness :
    Encodes [0x0A, 0x24] ("A" ++ ("a" ++ "")) ∧
    (parse_string ([0x0A, 0x24] ++ [0xFF]) = .ok ("A" ++ ("a" ++ "")) ∧
      parse_string [0x0A, 0x24, 0xFF] = .ok "Aa" ∧
      parse_string [0xF0, 0x06, 0xFF] = .ok "Digimon") := by
  have e1 : Encodes [0x0A, 0x24] ("A" ++ ("a" ++ "")) :=
    .single (by decide) (by decide) rfl
      (.single (by decide) (by decide) rfl .nil)
  exact ⟨e1, c5_text_decoder_concat [0x0A, 0x24] ("A" ++ ("a" ++ "")) e1⟩

/-- C6: a floor-plan region with at least 1536 bytes decodes successfully to
a 48-row by 32-column grid whose entries are the first 1536 input bytes in
row-major order; with 1535 or fewer bytes available the decode fails with
the truncation error. -/
theorem c6_floor_plan_grid (raw bad : List Nat) (h : 1536 ≤ raw.length)
    (hbad : bad.length < 1536) :
    FloorPlan.new raw = .ok (FloorPlan.mk (floorRows raw)) ∧
    (floorRows raw).length = 48 ∧
    (∀ row ∈ floorRows raw, row.length = 32) ∧
    (∀ r, r < 48 → ∀ c, c < 32 →
      ((floorRows raw).getD r []).getD c 0 = raw.getD (32 * r + c) 0) ∧
    FloorPlan.new bad = .err .truncatedFloorPlan := by
  obtain ⟨hl, hrow⟩ := floorRows_shape raw h
  exact ⟨floorplan_ok raw h, hl, hrow,
    fun r hr c hc => floorRows_entry raw hr hc, floorplan_err bad hbad⟩

theorem c6_witness :
    1536 ≤ (List.replicate 1536 0).length ∧
    ([] : List Nat).length < 1536 ∧
    (FloorPlan.new (List.replicate 1536 0) =
        .ok (FloorPlan.mk (floorRows (List.replicate 1536 0))) ∧
      (floorRows (List.replicate 1536 0)).length = 48 ∧
      (∀ row ∈ floorRows (List.replicate 1536 0), row.length = 32) ∧
      (∀ r, r < 48 → ∀ c, c < 32 →
        ((floorRows (List.replicate 1536 0)).getD r []).getD c 0 =
          (List.replicate 1536 0).getD (32 * r + c) 0) ∧
      FloorPlan.new [] = .err .truncatedFloorPlan) :=
  ⟨by simp, by decide,
    c6_floor_plan_grid (List.replicate 1536 0) [] (by simp) (by decide)⟩

/-- C7: a buffer whose first 4 bytes are all zero decodes successfully to
the (empty) `Dungeon`; in general a floor-pointer value of exactly zero
terminates the floor loop successfully, returning exactly the floors
accumulated so far. -/
theorem c7_zero_terminator (raw ptrs : List Nat) (i : Nat)
    (floors : List Floor) (h1 : raw.take 4 = [0, 0, 0, 0])
    (h2 : parse_ptr ptrs = .ok 0) :
    Dungeon.tryFrom raw = .ok Dungeon.mk ∧
    dungeonLoop raw ptrs i floors = .ok floors := by
  have hlen : 4 ≤ raw.length := by
    by_cases h4 : 4 ≤ raw.length
    · exact h4
    · exfalso
      rw [List.take_of_length_le (by omega)] at h1
      subst h1
      simp at h4
  have hb : ∀ j, j < 4 → raw.getD j 0 = 0 := by
    intro j hj
    rw [List.getD_eq_getElem?_getD,
      show raw[j]? = (raw.take 4)[j]? from by
        rw [List.getElem?_take, if_pos hj], h1]
    interval_cases j <;> rfl
  have hb' : ∀ j, j < 4 → raw[j]?.getD 0 = 0 := by
    intro j hj
    have := hb j hj
    rwa [List.getD_eq_getElem?_getD] at this
  have hz : parse_ptr raw = .ok 0 := by
    rw [parse_ptr, if_neg (by omega)]
    simp [leVal, hb' 0 (by omega), hb' 1 (by omega), hb' 2 (by omega),
      hb' 3 (by omega)]
  exact ⟨by rw [Dungeon.tryFrom, dungeonLoop_zero raw raw 1 [] hz, bind_ok],
    dungeonLoop_zero raw ptrs i floors h2⟩

theorem c7_witness :
    ([0, 0, 0, 0] : List Nat).take 4 = [0, 0, 0, 0] ∧
    parse_ptr [0, 0, 0, 0] = .ok 0 ∧
    (Dungeon.tryFrom [0, 0, 0, 0] = .ok Dungeon.mk ∧
      dungeonLoop [0, 0, 0, 0] [0, 0, 0, 0] 1 [] = .ok []) :=
  ⟨by decide, by decide,
    c7_zero_terminator [0, 0, 0, 0] [0, 0, 0, 0] 1 [] (by decide)
      (by decide)⟩

/-- C8: a character code absent from the glyph table makes the decode fail
with the illegal-character error naming exactly that code — for single-byte
codes and for extended (`0xF0`-prefixed) codes alike; no placeholder token
is ever substituted. -/
theorem c8_illegal_code (b b2 : Nat) (rest rest2 : List Nat)
    (h1 : b ≠ 0xFF) (h2 : b ≠ 0xF0) (h3 : CHARACTER_MAP b = none)
    (h4 : CHARACTER_MAP (0xF0 <<< 8 ||| b2) = none) :
    parse_string (b :: rest) = .err (.illegalCharacter b) ∧
    parse_string (0xF0 :: b2 :: rest2) =
      .err (.illegalCharacter (0xF0 <<< 8 ||| b2)) :=
  ⟨ps_of_piece_err (piece_single_none rest h1 h2 h3),
    ps_of_piece_err (piece_extended_none rest2 h4)⟩

theorem c8_witness :
    (0x42 : Nat) ≠ 0xFF ∧ (0x42 : Nat) ≠ 0xF0 ∧
    CHARACTER_MAP 0x42 = none ∧
    CHARACTER_MAP (0xF0 <<< 8 ||| 0xFF) = none ∧
    (parse_string [0x42] = .err (.illegalCharacter 0x42) ∧
      parse_string [0xF0, 0xFF] =
        .err (.illegalCharacter (0xF0 <<< 8 ||| 0xFF))) :=
  ⟨by decide, by decide, by decide, by decide,
    c8_illegal_code 0x42 0xFF [] [] (by decide) (by decide) (by decide)
      (by decide)⟩

/-- C9: the text decoder fails with the truncation error on empty input
(rather than returning an empty string), and when the `0xF0` extension
prefix is the last available byte. -/
theorem c9_truncated_text (bs : List Nat) (s : String) (h : Encodes bs s) :
    parse_string [] = .err .truncatedCharacter ∧
    parse_string (bs ++ [0xF0]) = .err .truncatedCharacter := by
  have h240 : parse_string [0xF0] = .err .truncatedCharacter :=
    ps_of_piece_err (by decide)
  refine ⟨ps_of_piece_err rfl, ?_⟩
  have hp := encodes_prefix h [0xF0]
  rw [h240] at hp
  simpa using hp

theorem c9_witness :
    Encodes [] "" ∧
    (parse_string [] = .err .truncatedCharacter ∧
      parse_string ([] ++ [0xF0]) = .err .truncatedCharacter) :=
  ⟨.nil, c9_truncated_text [] "" .nil⟩

/-- C10: a byte run starting with the `0xFF` terminator decodes successfully
to the empty string, regardless of any bytes following the terminator. -/
theorem c10_terminator_empty (rest : List Nat) :
    parse_string (0xFF :: rest) = .ok "" :=
  ps_term rest

end Digimon
